import Mathlib

/-!
Shallow embedding of the edge-AI pipeline (incremental learner and sensor
preprocessor) of this repository, together with theorems settling the spec
claims about it.

Python dictionaries are modelled as insertion-ordered association lists,
`float` values as rationals, NumPy arrays as lists of rationals, and the
external library primitives that are not part of the repository
(floating-point square root used by `np.std` / `np.linalg.norm`,
`np.random.choice`, and the OpenCV image kernels) as parameters bundled in
an `Ext` structure, so every theorem quantifies over them.
-/

namespace EdgeAI

/-- Lookup in an insertion-ordered association list (Python `dict` access). -/
def alLookup {α : Type} (k : String) : List (String × α) → Option α
  | [] => none
  | (k', v) :: t => if k = k' then some v else alLookup k t

/-- Store into an insertion-ordered association list (Python `dict`
assignment): replaces in place when the key exists, appends otherwise. -/
def alInsert {α : Type} (k : String) (v : α) : List (String × α) → List (String × α)
  | [] => [(k, v)]
  | (k', v') :: t => if k = k' then (k, v) :: t else (k', v') :: alInsert k v t

/-- `collections.deque(maxlen := m).append`: push at the back, evict from the
front when over capacity. -/
def dequePush {α : Type} (maxlen : ℕ) (buf : List α) (x : α) : List α :=
  let b := buf ++ [x]
  if maxlen < b.length then b.drop (b.length - maxlen) else b

/-- `np.mean` over a rational list. -/
def npMean (l : List ℚ) : ℚ := l.sum / (l.length : ℚ)

/-- `np.var` (population variance): mean of squared deviations. -/
def npVar (l : List ℚ) : ℚ := npMean (l.map (fun x => (x - npMean l) ^ 2))

/-- `np.min` over a nonempty list (0 on the empty list, never reached). -/
def npMin : List ℚ → ℚ
  | [] => 0
  | h :: t => t.foldl min h

/-- `np.max` over a nonempty list (0 on the empty list, never reached). -/
def npMax : List ℚ → ℚ
  | [] => 0
  | h :: t => t.foldl max h

/-- Insert into a sorted list, for `npMedian`. -/
def insSorted (x : ℚ) : List ℚ → List ℚ
  | [] => [x]
  | h :: t => if x ≤ h then x :: h :: t else h :: insSorted x t

/-- Insertion sort, for `npMedian`. -/
def npSort : List ℚ → List ℚ
  | [] => []
  | h :: t => insSorted h (npSort t)

/-- `np.median`: middle element of the sorted list, or the average of the two
middle elements for an even length. -/
def npMedian (l : List ℚ) : ℚ :=
  let s := npSort l
  let n := l.length
  if n = 0 then 0
  else if n % 2 = 1 then s.getD (n / 2) 0
  else (s.getD (n / 2 - 1) 0 + s.getD (n / 2) 0) / 2

/-- `np.argmin`: index of the first minimal element (0 on the empty list). -/
def npArgmin (l : List ℚ) : ℕ :=
  (l.enum.foldl (fun best p => if p.2 < best.2 then (p.1, p.2) else best)
    (0, l.headD 0)).1

/-- Column `j` of a row-major matrix (`matrix[:, j]`). -/
def col (rows : List (List ℚ)) (j : ℕ) : List ℚ :=
  rows.map (fun r => r.getD j 0)

/-- Componentwise vector subtraction on equal-length vectors. NumPy raises
a broadcast error on mismatched lengths, which this total function cannot
express (it truncates); `npBroadcastSub` below is the faithful fallible
embedding, and `vsub` is used only in statements about paths that either
subtract equal-length vectors or assert nothing about the produced value. -/
def vsub (a b : List ℚ) : List ℚ := List.zipWith (fun x y => x - y) a b

/-- External primitives that the repository calls but does not define:
floating-point square root (inside `np.std`, `np.linalg.norm`, magnitudes),
`np.random.choice(n, k, replace=False)`, and the OpenCV image kernels. -/
structure Ext where
  sqrt : ℚ → ℚ
  choice : ℕ → ℕ → List ℕ
  resize : List (List (List ℚ)) → List (List (List ℚ))
  rgb2gray : List (List (List ℚ)) → List (List ℚ)
  sobel : Bool → List (List ℚ) → List (List ℚ)

/-- Values held in a `ProcessedFeatures.context` / `SensorReading.metadata`
map (Python is dynamically typed there). -/
inductive CtxVal where
  | cNum (q : ℚ)
  | cStr (s : String)
  | cBool (b : Bool)
  | cNone
  | cShape (dims : List ℕ)
  | cDict (d : List (String × ℚ))
  deriving DecidableEq, Repr

/-- One entry of the learner's experience replay buffer. -/
structure Experience where
  timestamp : ℚ
  sensor_id : String
  features : List ℚ
  feature_names : List String
  label : Option String
  reward : Option ℚ
  context : List (String × CtxVal)
  deriving DecidableEq, Repr, Inhabited

/-- `ProcessedFeatures` dataclass of the preprocessor. -/
structure ProcessedFeatures where
  features : List ℚ
  feature_names : List String
  timestamp : ℚ
  sensor_id : String
  context : List (String × CtxVal)
  deriving DecidableEq, Repr

/-- The `IncrementalLearner` object state. -/
structure Learner where
  learning_rate : ℚ
  memory_size : ℕ
  update_threshold : ℕ
  experience_buffer : List Experience
  feature_weights : List (String × ℚ)
  anomaly_thresholds : List (String × (ℚ × ℚ))
  pattern_clusters : List (String × List (List ℚ))
  update_count : ℕ
  total_samples : ℕ
  deriving DecidableEq, Repr

/-- The `f"{sensor_id}_{name}"` key used by the learner's maps. -/
def mkKey (sid name : String) : String := sid ++ "_" ++ name

/-- Group buffered experiences by sensor id, preserving first-seen sensor
order and within-group order (a Python `dict` of lists built by append). -/
def addToGroup : List (String × List Experience) → Experience → List (String × List Experience)
  | [], e => [(e.sensor_id, [e])]
  | (s, es) :: t, e =>
    if e.sensor_id = s then (s, es ++ [e]) :: t else (s, es) :: addToGroup t e

/-- The `sensor_groups` dictionary built at the top of each update helper. -/
def sensorGroups (buf : List Experience) : List (String × List Experience) :=
  buf.foldl addToGroup []

/-- `len(set(feature_lengths)) <= 1`: all feature vectors in the group have
the same length. -/
def homogeneousLens : List Experience → Bool
  | [] => true
  | h :: t => t.all (fun e => e.features.length == h.features.length)

/-- The EMA blend `0.7 * old + 0.3 * sample` used for feature weights. -/
def emaBlend (old sample : ℚ) : ℚ := 7/10 * old + 3/10 * sample

/-- One key write of `_update_feature_weights`: EMA-blend into an existing
weight, plain store for a fresh key. -/
def fwWrite (key : String) (w : ℚ) (m : List (String × ℚ)) : List (String × ℚ) :=
  match alLookup key m with
  | some old => alInsert key (emaBlend old w) m
  | none => alInsert key w m

/-- Per-sensor-group body of `_update_feature_weights`. -/
def fwGroup (sid : String) (exps : List Experience) (m : List (String × ℚ)) :
    List (String × ℚ) :=
  if exps.length < 2 then m
  else if !homogeneousLens exps then m
  else
    let rows := exps.map (·.features)
    let names := ((exps.headD default).feature_names)
    let ncols := (exps.headD default).features.length
    let vars := (List.range ncols).map (fun j => npVar (col rows j))
    let s := vars.sum
    if 0 < s then
      let weights := vars.map (· / s)
      names.enum.foldl
        (fun m p => fwWrite (mkKey sid p.2) (weights.getD p.1 0) m) m
    else m

/-- `_update_feature_weights` over the whole buffer. -/
def updateFeatureWeights (buf : List Experience) (m : List (String × ℚ)) :
    List (String × ℚ) :=
  (sensorGroups buf).foldl (fun m g => fwGroup g.1 g.2 m) m

/-- One key write of `_update_anomaly_thresholds`: band at mean plus or minus
three standard deviations, EMA-smoothed into an existing band. -/
def thrWrite (key : String) (lower upper : ℚ) (m : List (String × (ℚ × ℚ))) :
    List (String × (ℚ × ℚ)) :=
  match alLookup key m with
  | some old =>
    alInsert key (8/10 * old.1 + 2/10 * lower, 8/10 * old.2 + 2/10 * upper) m
  | none => alInsert key (lower, upper) m

/-- Per-sensor-group body of `_update_anomaly_thresholds`; `sq` models the
floating-point square root inside `np.std`. -/
def thrGroup (sq : ℚ → ℚ) (sid : String) (exps : List Experience)
    (m : List (String × (ℚ × ℚ))) : List (String × (ℚ × ℚ)) :=
  if exps.length < 5 then m
  else if !homogeneousLens exps then m
  else
    let rows := exps.map (·.features)
    ((exps.headD default).feature_names).enum.foldl
      (fun m p =>
        let mean := npMean (col rows p.1)
        let std := sq (npVar (col rows p.1))
        thrWrite (mkKey sid p.2) (mean - 3 * std) (mean + 3 * std) m) m

/-- `_update_anomaly_thresholds` over the whole buffer. -/
def updateAnomalyThresholds (sq : ℚ → ℚ) (buf : List Experience)
    (m : List (String × (ℚ × ℚ))) : List (String × (ℚ × ℚ)) :=
  (sensorGroups buf).foldl (fun m g => thrGroup sq g.1 g.2 m) m

/-- Euclidean norm via the external square root. -/
def vnorm (sq : ℚ → ℚ) (v : List ℚ) : ℚ := sq ((v.map (fun x => x ^ 2)).sum)

/-- Per-sensor-group body of `_update_pattern_clusters` (max_clusters = 5):
seed centroids on first sight from randomly chosen rows, then EMA-recenter
each centroid towards the mean of the rows within the median distance. -/
def clGroup (ext : Ext) (sid : String) (exps : List Experience)
    (m : List (String × List (List ℚ))) : List (String × List (List ℚ)) :=
  if exps.length < 5 then m
  else if !homogeneousLens exps then m
  else
    let rows := exps.map (·.features)
    let m1 :=
      match alLookup sid m with
      | some _ => m
      | none =>
        let idxs := ext.choice rows.length (min 5 rows.length)
        alInsert sid (idxs.map (fun i => rows.getD i [])) m
    let clusters := (alLookup sid m1).getD []
    let newClusters := clusters.map (fun c =>
      let dists := rows.map (fun r => vnorm ext.sqrt (vsub r c))
      let med := npMedian dists
      let close := (rows.zip dists).filterMap
        (fun rd => if rd.2 < med then some rd.1 else none)
      if 0 < close.length then
        (List.range c.length).map
          (fun j => 7/10 * c.getD j 0 + 3/10 * npMean (col close j))
      else c)
    alInsert sid newClusters m1

/-- `_update_pattern_clusters` over the whole buffer. -/
def updatePatternClusters (ext : Ext) (buf : List Experience)
    (m : List (String × List (List ℚ))) : List (String × List (List ℚ)) :=
  (sensorGroups buf).foldl (fun m g => clGroup ext g.1 g.2 m) m

/-- `_incremental_update`: skip on a buffer of fewer than 2 entries,
otherwise recompute weights, thresholds and clusters over the entire buffer
and bump `update_count`. -/
def incrementalUpdate (ext : Ext) (L : Learner) : Learner :=
  if L.experience_buffer.length < 2 then L
  else
    { L with
      feature_weights := updateFeatureWeights L.experience_buffer L.feature_weights
      anomaly_thresholds :=
        updateAnomalyThresholds ext.sqrt L.experience_buffer L.anomaly_thresholds
      pattern_clusters :=
        updatePatternClusters ext L.experience_buffer L.pattern_clusters
      update_count := L.update_count + 1 }

/-- The experience record built by `add_experience` (`now` models
`time.time()`). -/
def mkExperience (now : ℚ) (f : ProcessedFeatures) (label : Option String)
    (reward : Option ℚ) : Experience :=
  { timestamp := now
    sensor_id := f.sensor_id
    features := f.features
    feature_names := f.feature_names
    label := label
    reward := reward
    context := f.context }

/-- `add_experience`: append to the bounded buffer, count the sample, and run
an incremental update whenever the buffer has reached `update_threshold`. -/
def addExperience (ext : Ext) (now : ℚ) (f : ProcessedFeatures)
    (label : Option String) (reward : Option ℚ) (L : Learner) : Learner :=
  let L1 := { L with
    experience_buffer :=
      dequePush L.memory_size L.experience_buffer (mkExperience now f label reward)
    total_samples := L.total_samples + 1 }
  if L.update_threshold ≤ L1.experience_buffer.length then incrementalUpdate ext L1
  else L1

/-- The `anomaly_scores` list built by `detect_anomaly`: for each feature
with a learned band, append a normalized out-of-band score when the value
falls outside the band. -/
def anomalyScores (th : List (String × (ℚ × ℚ))) (f : ProcessedFeatures) :
    List ℚ :=
  f.feature_names.enum.foldl
    (fun acc p =>
      match alLookup (mkKey f.sensor_id p.2) th with
      | none => acc
      | some band =>
        let v := f.features.getD p.1 0
        if v < band.1 ∨ band.2 < v then
          acc ++ [if v < band.1 then
                    (if band.1 = 0 then 1 else (band.1 - v) / |band.1|)
                  else
                    (if band.2 = 0 then 1 else (v - band.2) / |band.2|)]
        else acc) []

/-- `detect_anomaly`: anomalous with the mean score when any feature scored,
`(false, 0.0)` otherwise. -/
def detectAnomaly (L : Learner) (f : ProcessedFeatures) : Bool × ℚ :=
  let scores := anomalyScores L.anomaly_thresholds f
  if scores.length = 0 then (false, 0)
  else (decide (0 < scores.length), npMean scores)

/-- `predict_pattern`: index of the nearest learned centroid, none when the
sensor has no clusters. -/
def predictPattern (ext : Ext) (L : Learner) (f : ProcessedFeatures) :
    Option ℕ :=
  match alLookup f.sensor_id L.pattern_clusters with
  | none => none
  | some clusters =>
    let dists := clusters.map (fun c => vnorm ext.sqrt (vsub f.features c))
    if dists.length = 0 then none else some (npArgmin dists)

/-- Method-style `detect_anomaly`: result paired with the post-call object
state (the method body never assigns to any field). -/
def detectAnomalyM (L : Learner) (f : ProcessedFeatures) :
    (Bool × ℚ) × Learner := (detectAnomaly L f, L)

/-- Method-style `predict_pattern`: result paired with the post-call object
state (the method body never assigns to any field). -/
def predictPatternM (ext : Ext) (L : Learner) (f : ProcessedFeatures) :
    Option ℕ × Learner := (predictPattern ext L f, L)

/-- The `metadata` block of a saved parameter record; fields are optional so
that structurally incomplete records can be represented. -/
structure SavedMetadata where
  update_count : Option ℕ
  total_samples : Option ℕ
  learning_rate : Option ℚ
  timestamp : Option ℚ
  deriving DecidableEq, Repr

/-- A stored parameter record (the JSON object written by
`save_learned_parameters`); fields are optional so that missing fields of an
arbitrary record can be represented. -/
structure StoredParams where
  feature_weights : Option (List (String × ℚ))
  anomaly_thresholds : Option (List (String × List ℚ))
  pattern_clusters : Option (List (String × List (List ℚ)))
  metadata : Option SavedMetadata
  deriving DecidableEq, Repr

/-- `save_learned_parameters`: serialize the learned state (bands become
two-element lists, centroids stay nested lists). JSON float round-tripping
is exact, so serialization is structural. -/
def saveLearnedParameters (L : Learner) (now : ℚ) : StoredParams :=
  { feature_weights := some L.feature_weights
    anomaly_thresholds :=
      some (L.anomaly_thresholds.map (fun kv => (kv.1, [kv.2.1, kv.2.2])))
    pattern_clusters := some L.pattern_clusters
    metadata := some
      { update_count := some L.update_count
        total_samples := some L.total_samples
        learning_rate := some L.learning_rate
        timestamp := some now } }

/-- `tuple(v)` on a stored two-element band list. -/
def pairOfList (v : List ℚ) : ℚ × ℚ := (v.getD 0 0, v.getD 1 0)

/-- `load_learned_parameters`: assign each field in program order; a missing
field raises a KeyError caught by the surrounding handler, which returns
False, leaving every field assigned before the failure overwritten. -/
def loadLearnedParameters (p : StoredParams) (L : Learner) : Bool × Learner :=
  match p.feature_weights with
  | none => (false, L)
  | some fw =>
    let L1 := { L with feature_weights := fw }
    match p.anomaly_thresholds with
    | none => (false, L1)
    | some th =>
      let L2 := { L1 with
        anomaly_thresholds := th.map (fun kv => (kv.1, pairOfList kv.2)) }
      match p.pattern_clusters with
      | none => (false, L2)
      | some pc =>
        let L3 := { L2 with pattern_clusters := pc }
        match p.metadata with
        | none => (false, L3)
        | some md =>
          match md.update_count with
          | none => (false, L3)
          | some uc =>
            let L4 := { L3 with update_count := uc }
            match md.total_samples with
            | none => (false, L4)
            | some ts => (true, { L4 with total_samples := ts })

/-- Structural completeness of a stored record: every field that
`load_learned_parameters` reads is present. -/
def storedComplete (p : StoredParams) : Bool :=
  p.feature_weights.isSome && p.anomaly_thresholds.isSome &&
  p.pattern_clusters.isSome &&
  (match p.metadata with
   | none => false
   | some md => md.update_count.isSome && md.total_samples.isSome)

/-- Python exception kinds raised on the modelled paths. -/
inductive PyErr where
  | typeError
  | valueError
  deriving DecidableEq, Repr

/-- The closed set of sensor types (`SensorType` enum). -/
inductive SensorType where
  | temperature
  | motion
  | camera
  | humidity
  | light
  | pressure
  | accelerometer
  | gps
  deriving DecidableEq, Repr

/-- The enum's string payload (`SensorType.X.value`). -/
def SensorType.value : SensorType → String
  | .temperature => "temperature"
  | .motion => "motion"
  | .camera => "camera"
  | .humidity => "humidity"
  | .light => "light"
  | .pressure => "pressure"
  | .accelerometer => "accelerometer"
  | .gps => "gps"

/-- The polymorphic `value` payload of a sensor reading: scalar, boolean,
labeled 3-axis mapping, image array, or nothing. -/
inductive RawValue where
  | rNone
  | rNum (q : ℚ)
  | rBool (b : Bool)
  | rDict (d : List (String × ℚ))
  | rImage (img : List (List (List ℚ)))
  deriving DecidableEq, Repr

/-- `float(value)`: succeeds on numbers and booleans, raises otherwise. -/
def pyFloat : RawValue → Except PyErr ℚ
  | .rNum q => .ok q
  | .rBool b => .ok (if b then 1 else 0)
  | _ => .error .typeError

/-- Number of scalar elements of an image array. -/
def imgSize (img : List (List (List ℚ))) : ℕ :=
  (img.map (fun r => (r.map List.length).sum)).sum

/-- Python truthiness of a reading value; a NumPy array of exactly one
element is truthy iff that element is nonzero, any other array raises. -/
def pyTruthy : RawValue → Except PyErr Bool
  | .rNone => .ok false
  | .rNum q => .ok (decide (q ≠ 0))
  | .rBool b => .ok b
  | .rDict d => .ok (decide (d ≠ []))
  | .rImage img =>
    if imgSize img = 1 then .ok (decide (img.flatten.flatten.headD 0 ≠ 0))
    else .error .valueError

/-- The `SensorReading` dataclass. -/
structure SensorReading where
  sensor_id : String
  sensor_type : SensorType
  timestamp : ℚ
  value : RawValue
  unit : String
  confidence : ℚ
  metadata : List (String × CtxVal)
  deriving DecidableEq, Repr

/-- One temporal-window entry: temperature and motion store scalars, the
accelerometer stores `[x, y, z, magnitude]` vectors. -/
inductive WinVal where
  | wNum (q : ℚ)
  | wVec (v : List ℚ)
  deriving DecidableEq, Repr

/-- The `SensorPreprocessor` object state (the per-type normalization
constants are fixed data, kept as `presetStats`). -/
structure Preprocessor where
  window_size : ℕ
  normalize : Bool
  feature_windows : List (String × List WinVal)
  deriving DecidableEq, Repr

/-- The predefined `self.stats` normalization table:
`(mean, std, min, max)` per numeric sensor type. -/
def presetStats : SensorType → Option (ℚ × ℚ × ℚ × ℚ)
  | .temperature => some (22, 5, -10, 50)
  | .humidity => some (50, 20, 0, 100)
  | .light => some (500, 300, 0, 1000)
  | .pressure => some (1013, 20, 950, 1050)
  | _ => none

/-- Read the window entries as scalars (`np.array` over a scalar deque);
a vector entry in a scalar window is ill-typed and modelled as an error. -/
def winScalars : List WinVal → Except PyErr (List ℚ)
  | [] => .ok []
  | .wNum q :: t => do pure (q :: (← winScalars t))
  | .wVec _ :: t => do let _ ← winScalars t; .error .typeError

/-- Read the window entries as vectors (`np.array` over a vector deque). -/
def winVecs : List WinVal → Except PyErr (List (List ℚ))
  | [] => .ok []
  | .wVec v :: t => do pure (v :: (← winVecs t))
  | .wNum _ :: t => do let _ ← winVecs t; .error .typeError

/-- Read a metadata value as a number with a default (`metadata.get(k, d)`
followed by arithmetic use). -/
def ctxNumGet (md : List (String × CtxVal)) (k : String) (dflt : ℚ) :
    Except PyErr ℚ :=
  match alLookup k md with
  | none => .ok dflt
  | some (.cNum q) => .ok q
  | some _ => .error .typeError

/-- `_process_temperature`: convert to float (raising on mismatch), append
to the window, emit the (optionally normalized) current value, the delta
once 2 samples exist, and window statistics once the window is full. -/
def processTemperature (ext : Ext) (pp : Preprocessor) (r : SensorReading) :
    Except PyErr (Option ProcessedFeatures × Preprocessor) := do
  let value ← pyFloat r.value
  let win := dequePush pp.window_size
    ((alLookup r.sensor_id pp.feature_windows).getD []) (.wNum value)
  let pp1 := { pp with
    feature_windows := alInsert r.sensor_id win pp.feature_windows }
  let arr ← winScalars win
  let nrm :=
    match presetStats .temperature with
    | some st => (value - st.1) / st.2.1
    | none => value
  let fs1 : List ℚ := if pp.normalize then [nrm] else [value]
  let ns1 : List String := ["temperature_current"]
  let fs2 := if 2 ≤ win.length then
      fs1 ++ [arr.getD (arr.length - 1) 0 - arr.getD (arr.length - 2) 0]
    else fs1
  let ns2 := if 2 ≤ win.length then ns1 ++ ["temperature_delta"] else ns1
  let fs3 := if pp.window_size ≤ win.length then
      fs2 ++ [npMean arr, ext.sqrt (npVar arr), npMin arr, npMax arr]
    else fs2
  let ns3 := if pp.window_size ≤ win.length then
      ns2 ++ ["temperature_mean", "temperature_std", "temperature_min",
              "temperature_max"]
    else ns2
  return (some
    { features := fs3
      feature_names := ns3
      timestamp := r.timestamp
      sensor_id := r.sensor_id
      context := [("raw_value", .cNum value), ("unit", .cStr r.unit)] }, pp1)

/-- `_process_motion`: truthiness as 0/1, window append, activation
frequency and time-since-motion once the window is full. -/
def processMotion (pp : Preprocessor) (r : SensorReading) :
    Except PyErr (Option ProcessedFeatures × Preprocessor) := do
  let tv ← pyTruthy r.value
  let md : ℚ := if tv then 1 else 0
  let win := dequePush pp.window_size
    ((alLookup r.sensor_id pp.feature_windows).getD []) (.wNum md)
  let pp1 := { pp with
    feature_windows := alInsert r.sensor_id win pp.feature_windows }
  let arr ← winScalars win
  let fs1 : List ℚ := [md]
  let ns1 : List String := ["motion_current"]
  if pp.window_size ≤ win.length then do
    let rate := arr.sum / (arr.length : ℚ)
    let timeSince ←
      if tv then pure (0 : ℚ)
      else do
        let lm ← ctxNumGet r.metadata "last_motion" r.timestamp
        pure (r.timestamp - lm)
    return (some
      { features := fs1 ++ [rate, min (timeSince / 60) 10]
        feature_names := ns1 ++ ["motion_frequency", "time_since_motion"]
        timestamp := r.timestamp
        sensor_id := r.sensor_id
        context := [("motion_detected", .cBool tv)] }, pp1)
  else
    return (some
      { features := fs1
        feature_names := ns1
        timestamp := r.timestamp
        sensor_id := r.sensor_id
        context := [("motion_detected", .cBool tv)] }, pp1)

/-- `(rows, cols)` shape of an image array. -/
def imgShape2 (img : List (List (List ℚ))) : ℕ × ℕ :=
  (img.length, (img.headD []).length)

/-- Full shape of an image array. -/
def imgShape (img : List (List (List ℚ))) : List ℕ :=
  [img.length, (img.headD []).length, ((img.headD []).headD []).length]

/-- All scalars of channel `i` of an image (`frame[:, :, i]`). -/
def channelVals (img : List (List (List ℚ))) (i : ℕ) : List ℚ :=
  (img.map (fun row => row.map (fun px => px.getD i 0))).flatten

/-- `_process_camera`: return no result unless the value is an image array,
otherwise downsample and emit brightness, contrast and edge-density
features; the temporal window is never touched. -/
def processCamera (ext : Ext) (pp : Preprocessor) (r : SensorReading) :
    Except PyErr (Option ProcessedFeatures × Preprocessor) :=
  match r.value with
  | .rImage frame =>
    let small := if imgShape2 frame ≠ (64, 64) then ext.resize frame else frame
    let bright := [0, 1, 2].map (fun i => npMean (channelVals small i) / 255)
    let gray := ext.rgb2gray small
    let overall := npMean gray.flatten / 255
    let contrast := ext.sqrt (npVar gray.flatten) / 255
    let sx := (ext.sobel true gray).flatten
    let sy := (ext.sobel false gray).flatten
    let mags := (sx.zip sy).map (fun ab => ext.sqrt (ab.1 ^ 2 + ab.2 ^ 2))
    let edge := npMean mags / 255
    .ok (some
      { features := bright ++ [overall, contrast, edge]
        feature_names := ["brightness_r", "brightness_g", "brightness_b",
                          "brightness_overall", "contrast", "edge_density"]
        timestamp := r.timestamp
        sensor_id := r.sensor_id
        context := [("resolution", (alLookup "resolution" r.metadata).getD .cNone),
                    ("frame_shape", .cShape (imgShape frame)),
                    ("objects_detected",
                     (alLookup "objects_detected" r.metadata).getD (.cNum 0))] },
      pp)
  | _ => .ok (none, pp)

/-- `_process_accelerometer`: return no result unless the value is a
mapping; otherwise read the axes with 0 defaults, append
`[x, y, z, magnitude]` to the window, and emit jerk and per-axis variance
once 3 samples exist. -/
def processAccelerometer (ext : Ext) (pp : Preprocessor) (r : SensorReading) :
    Except PyErr (Option ProcessedFeatures × Preprocessor) :=
  match r.value with
  | .rDict d => do
    let x := (alLookup "x" d).getD 0
    let y := (alLookup "y" d).getD 0
    let z := (alLookup "z" d).getD 0
    let mag := ext.sqrt (x ^ 2 + y ^ 2 + z ^ 2)
    let win := dequePush pp.window_size
      ((alLookup r.sensor_id pp.feature_windows).getD []) (.wVec [x, y, z, mag])
    let pp1 := { pp with
      feature_windows := alInsert r.sensor_id win pp.feature_windows }
    let fs1 : List ℚ := [x, y, z, mag]
    let ns1 : List String := ["accel_x", "accel_y", "accel_z", "accel_magnitude"]
    if 3 ≤ win.length then do
      let rows ← winVecs win
      let pairs := rows.zip rows.tail
      let jerks := pairs.map (fun ab =>
        vnorm ext.sqrt (vsub (ab.2.take 3) (ab.1.take 3)))
      let jerkMag := npMean jerks
      let vars := [0, 1, 2].map (fun i => npVar (col rows i))
      return (some
        { features := fs1 ++ [jerkMag] ++ vars
          feature_names := ns1 ++ ["jerk_magnitude", "accel_x_variance",
                                   "accel_y_variance", "accel_z_variance"]
          timestamp := r.timestamp
          sensor_id := r.sensor_id
          context := [("raw_accel", .cDict d)] }, pp1)
    else
      return (some
        { features := fs1
          feature_names := ns1
          timestamp := r.timestamp
          sensor_id := r.sensor_id
          context := [("raw_accel", .cDict d)] }, pp1)
  | _ => .ok (none, pp)

/-- `_process_generic`: pass a numeric (or boolean, an `int` in Python)
value through, emit a zero placeholder otherwise; no window touch. -/
def processGeneric (pp : Preprocessor) (r : SensorReading) :
    Except PyErr (Option ProcessedFeatures × Preprocessor) :=
  let fn : List ℚ × List String :=
    match r.value with
    | .rNum q => ([q], [r.sensor_type.value ++ "_value"])
    | .rBool b => ([if b then 1 else 0], [r.sensor_type.value ++ "_value"])
    | _ => ([0], ["unknown"])
  .ok (some
    { features := fn.1
      feature_names := fn.2
      timestamp := r.timestamp
      sensor_id := r.sensor_id
      context := [("raw_value",
        match r.value with
        | .rNum q => .cNum q
        | .rBool b => .cBool b
        | _ => .cNone)] }, pp)

/-- The window-creation step at the top of `process_reading`. -/
def ensureWindow (sid : String) (pp : Preprocessor) : Preprocessor :=
  match alLookup sid pp.feature_windows with
  | some _ => pp
  | none => { pp with feature_windows := alInsert sid [] pp.feature_windows }

/-- `process_reading`: create the sensor's window if absent, then dispatch
on the sensor type. -/
def processReading (ext : Ext) (pp : Preprocessor) (r : SensorReading) :
    Except PyErr (Option ProcessedFeatures × Preprocessor) :=
  let pp0 := ensureWindow r.sensor_id pp
  match r.sensor_type with
  | .temperature => processTemperature ext pp0 r
  | .motion => processMotion pp0 r
  | .camera => processCamera ext pp0 r
  | .accelerometer => processAccelerometer ext pp0 r
  | _ => processGeneric pp0 r

/-- `process_batch`, a list comprehension whose filter re-evaluates
`process_reading`: for each reading the filter call runs first; when its
result is truthy (any `ProcessedFeatures` object) the element expression
calls `process_reading` again and that second result is kept. -/
def processBatch (ext : Ext) (pp : Preprocessor) :
    List SensorReading →
    Except PyErr (List (Option ProcessedFeatures) × Preprocessor)
  | [] => .ok ([], pp)
  | r :: rest => do
    let (o1, pp1) ← processReading ext pp r
    match o1 with
    | none => processBatch ext pp1 rest
    | some _ => do
      let (o2, pp2) ← processReading ext pp1 r
      let (os, pp3) ← processBatch ext pp2 rest
      return (o2 :: os, pp3)

/-- NumPy 1-D broadcasting of a binary operation: elementwise on
equal-length vectors, a length-1 operand broadcasts over the other,
anything else raises a broadcast `ValueError`. -/
def npBroadcastZip (f : ℚ → ℚ → ℚ) (a b : List ℚ) :
    Except PyErr (List ℚ) :=
  if a.length = b.length then .ok (List.zipWith f a b)
  else if b.length = 1 then .ok (a.map (fun x => f x (b.headD 0)))
  else if a.length = 1 then .ok (b.map (fun y => f (a.headD 0) y))
  else .error .valueError

/-- NumPy vector subtraction with broadcasting (raises on shape mismatch). -/
def npBroadcastSub (a b : List ℚ) : Except PyErr (List ℚ) :=
  npBroadcastZip (fun x y => x - y) a b

/-- One loop iteration of `_update_pattern_clusters`: the distances of all
rows to the centroid (`np.linalg.norm(features_matrix - cluster_center,
axis=1)`, raising when the stored centroid's length does not broadcast
against the rows), the rows within the median distance, and the
EMA-recentered centroid (unchanged when no row is close). -/
def clCenterE (ext : Ext) (rows : List (List ℚ)) (c : List ℚ) :
    Except PyErr (List ℚ) := do
  let diffs ← rows.mapM (fun r => npBroadcastSub r c)
  let dists := diffs.map (fun d => ext.sqrt ((d.map (fun x => x ^ 2)).sum))
  let med := npMedian dists
  let close := (rows.zip dists).filterMap
    (fun rd => if rd.2 < med then some rd.1 else none)
  if 0 < close.length then
    npBroadcastZip (fun x y => x + y) (c.map (fun x => 7/10 * x))
      ((List.range (close.headD []).length).map
        (fun j => 3/10 * npMean (col close j)))
  else pure c

/-- Per-sensor-group body of `_update_pattern_clusters`, faithful to the
raise path: small or heterogeneous groups are skipped; absent clusters are
seeded from randomly chosen rows (a mutation that persists even if the
recentering loop then raises); the recentered list is stored only when
every centroid's distance computation succeeds, otherwise the error
propagates with the map as mutated so far. -/
def clGroupE (ext : Ext) (sid : String) (exps : List Experience)
    (m : List (String × List (List ℚ))) :
    Option PyErr × List (String × List (List ℚ)) :=
  if exps.length < 5 then (none, m)
  else if !homogeneousLens exps then (none, m)
  else
    let rows := exps.map (·.features)
    let m1 :=
      match alLookup sid m with
      | some _ => m
      | none =>
        let idxs := ext.choice rows.length (min 5 rows.length)
        alInsert sid (idxs.map (fun i => rows.getD i [])) m
    let clusters := (alLookup sid m1).getD []
    match clusters.mapM (clCenterE ext rows) with
    | .error e => (some e, m1)
    | .ok newClusters => (none, alInsert sid newClusters m1)

/-- Fold of `clGroupE` over the sensor groups: the first raising group
aborts the remaining ones, keeping the mutations made so far. -/
def upcGroupsE (ext : Ext) :
    List (String × List Experience) → List (String × List (List ℚ)) →
    Option PyErr × List (String × List (List ℚ))
  | [], m => (none, m)
  | g :: t, m =>
    match clGroupE ext g.1 g.2 m with
    | (some e, m1) => (some e, m1)
    | (none, m1) => upcGroupsE ext t m1

/-- `_update_pattern_clusters` over the whole buffer, faithful to the raise
path of the NumPy broadcast. -/
def updatePatternClustersE (ext : Ext) (buf : List Experience)
    (m : List (String × List (List ℚ))) :
    Option PyErr × List (String × List (List ℚ)) :=
  upcGroupsE ext (sensorGroups buf) m

/-- `_incremental_update`, faithful to the raise path: weights and
thresholds are always recomputed over the entire buffer; when the cluster
recomputation raises, the exception propagates (first component) with the
partial cluster mutations retained and `update_count` NOT incremented;
otherwise the pass completes and `update_count` is incremented. -/
def incrementalUpdateE (ext : Ext) (L : Learner) : Option PyErr × Learner :=
  if L.experience_buffer.length < 2 then (none, L)
  else
    let L1 := { L with
      feature_weights := updateFeatureWeights L.experience_buffer L.feature_weights
      anomaly_thresholds :=
        updateAnomalyThresholds ext.sqrt L.experience_buffer L.anomaly_thresholds }
    match updatePatternClustersE ext L.experience_buffer L1.pattern_clusters with
    | (some e, m) => (some e, { L1 with pattern_clusters := m })
    | (none, m) =>
      (none, { L1 with pattern_clusters := m, update_count := L1.update_count + 1 })

/-- `add_experience`, faithful to the raise path: the append and the sample
counter always happen; a raise inside the triggered update pass propagates
to the caller with the object state as mutated so far. -/
def addExperienceE (ext : Ext) (now : ℚ) (f : ProcessedFeatures)
    (label : Option String) (reward : Option ℚ) (L : Learner) :
    Option PyErr × Learner :=
  let L1 := { L with
    experience_buffer :=
      dequePush L.memory_size L.experience_buffer (mkExperience now f label reward)
    total_samples := L.total_samples + 1 }
  if L.update_threshold ≤ L1.experience_buffer.length then incrementalUpdateE ext L1
  else (none, L1)

section Lemmas

theorem alLookup_alInsert_self {α : Type} (k : String) (v : α)
    (m : List (String × α)) : alLookup k (alInsert k v m) = some v := by
  induction m with
  | nil => simp [alInsert, alLookup]
  | cons hd t ih =>
    obtain ⟨k', v'⟩ := hd
    by_cases hk : k = k'
    · subst hk; simp [alInsert, alLookup]
    · simp [alInsert, alLookup, hk, ih]

theorem alLookup_alInsert_ne {α : Type} {k k' : String} (hk : k ≠ k') (v : α)
    (m : List (String × α)) : alLookup k (alInsert k' v m) = alLookup k m := by
  induction m with
  | nil => simp [alInsert, alLookup, hk]
  | cons hd t ih =>
    obtain ⟨k'', v''⟩ := hd
    by_cases h2 : k' = k''
    · subst h2; simp [alInsert, alLookup, hk]
    · by_cases h3 : k = k'' <;> simp [alInsert, alLookup, h2, h3, ih]

theorem fwWrite_lookup (key : String) (w : ℚ) (m : List (String × ℚ)) :
    alLookup key (fwWrite key w m) =
      some (match alLookup key m with
            | some old => emaBlend old w
            | none => w) := by
  unfold fwWrite
  cases h : alLookup key m <;> simp [h, alLookup_alInsert_self]

end Lemmas

/-- C1: saving the learned parameters and loading the produced record
restores the feature weights, threshold bands, cluster centroids and both
counters exactly (serialization is structural on the modelled rationals, the
"up to floating-point representation" caveat of the claim). -/
theorem c1_save_load_roundtrip (L L₀ : Learner) (now : ℚ) :
    loadLearnedParameters (saveLearnedParameters L now) L₀ =
      (true,
        { L₀ with
          feature_weights := L.feature_weights
          anomaly_thresholds := L.anomaly_thresholds
          pattern_clusters := L.pattern_clusters
          update_count := L.update_count
          total_samples := L.total_samples }) := by
  have hmap : ∀ l : List (String × (ℚ × ℚ)),
      (l.map (fun kv => (kv.1, [kv.2.1, kv.2.2]))).map
        (fun kv => (kv.1, pairOfList kv.2)) = l := by
    intro l
    induction l with
    | nil => rfl
    | cons hd t ih =>
      obtain ⟨a, b, c⟩ := hd
      simp only [List.map_cons, ih]
      simp [pairOfList]
  simp [loadLearnedParameters, saveLearnedParameters, hmap]

/-- C2 counterexample: a record whose `feature_weights` field is present but
whose `anomaly_thresholds` field is missing makes the load fail, yet the
in-memory feature weights have already been overwritten — the state is not
left as it was before the call. -/
theorem c2_load_failure_mutates_counterexample :
    loadLearnedParameters
        { feature_weights := some [("b", 2)], anomaly_thresholds := none,
          pattern_clusters := none, metadata := none }
        { learning_rate := 1, memory_size := 1000, update_threshold := 10,
          experience_buffer := [], feature_weights := [("a", 1)],
          anomaly_thresholds := [], pattern_clusters := [],
          update_count := 0, total_samples := 0 } ≠
      (false,
        { learning_rate := 1, memory_size := 1000, update_threshold := 10,
          experience_buffer := [], feature_weights := [("a", 1)],
          anomaly_thresholds := [], pattern_clusters := [],
          update_count := 0, total_samples := 0 }) ∧
    loadLearnedParameters
        { feature_weights := some [("b", 2)], anomaly_thresholds := none,
          pattern_clusters := none, metadata := none }
        { learning_rate := 1, memory_size := 1000, update_threshold := 10,
          experience_buffer := [], feature_weights := [("a", 1)],
          anomaly_thresholds := [], pattern_clusters := [],
          update_count := 0, total_samples := 0 } =
      (false,
        { learning_rate := 1, memory_size := 1000, update_threshold := 10,
          experience_buffer := [], feature_weights := [("b", 2)],
          anomaly_thresholds := [], pattern_clusters := [],
          update_count := 0, total_samples := 0 }) := by
  constructor
  · decide
  · decide

/-- C2 amended: loading reports failure exactly when the record is
structurally incomplete, but only a failure at the very first field
(`feature_weights`) leaves the whole in-memory state untouched; fields
assigned before the failing one keep their newly loaded values. -/
theorem c2_load_failure_amended (p : StoredParams) (L : Learner) :
    (loadLearnedParameters p L).1 = storedComplete p ∧
    loadLearnedParameters { p with feature_weights := none } L = (false, L) := by
  obtain ⟨fw, th, pc, md⟩ := p
  refine ⟨?_, rfl⟩
  cases fw <;> cases th <;> cases pc <;>
    [skip; skip; skip; skip; skip; skip; skip; skip] <;>
    first
      | (cases md with
          | none => simp [loadLearnedParameters, storedComplete]
          | some m =>
            obtain ⟨uc, ts, lr, tp⟩ := m
            cases uc <;> cases ts <;>
              simp [loadLearnedParameters, storedComplete])

/-- C9: the weight blend `0.7*old + 0.3*sample` lies in
`[min(old, sample), max(old, sample)]`, and a feature-weight write stores
exactly that blend of the previous weight and the new sample when the key
already exists (the raw sample when it does not), so every stored weight
stays between the previous weight and the sample. -/
theorem c9_ema_blend_bound (old sample : ℚ) :
    (min old sample ≤ emaBlend old sample ∧
      emaBlend old sample ≤ max old sample) ∧
    ∀ (m : List (String × ℚ)) (key : String) (w : ℚ),
      alLookup key (fwWrite key w m) =
        some (match alLookup key m with
              | some o => emaBlend o w
              | none => w) := by
  refine ⟨⟨?_, ?_⟩, fun m key w => fwWrite_lookup key w m⟩
  · rcases le_total old sample with h | h
    · rw [min_eq_left h]; unfold emaBlend; linarith
    · rw [min_eq_right h]; unfold emaBlend; linarith
  · rcases le_total old sample with h | h
    · rw [max_eq_right h]; unfold emaBlend; linarith
    · rw [max_eq_left h]; unfold emaBlend; linarith

/-- C10: `detect_anomaly` and `predict_pattern` are pure queries: the
post-call learner state — buffer, weights, thresholds, clusters and both
counters — is the input state. -/
theorem c10_queries_pure (ext : Ext) (L : Learner) (f : ProcessedFeatures) :
    (detectAnomalyM L f).2 = L ∧ (predictPatternM ext L f).2 = L :=
  ⟨rfl, rfl⟩

/-- C3 counterexample: with `update_threshold = 2`, the buffer count crosses
the threshold once (at the second add), yet a further add triggers another
full update pass — `update_count` reaches 2 after three adds, not 1, so the
pass is not triggered exactly at the crossing. -/
theorem c3_trigger_every_add_counterexample :
    (addExperience ⟨fun _ => 0, fun _ _ => [], id, fun _ => [], fun _ g => g⟩ 0
        ⟨[1], ["f"], 0, "s", []⟩ none none
        (addExperience ⟨fun _ => 0, fun _ _ => [], id, fun _ => [], fun _ g => g⟩ 0
          ⟨[0], ["f"], 0, "s", []⟩ none none
          ⟨1, 1000, 2, [], [], [], [], 0, 0⟩)).experience_buffer.length = 2 ∧
    (addExperience ⟨fun _ => 0, fun _ _ => [], id, fun _ => [], fun _ g => g⟩ 0
        ⟨[1], ["f"], 0, "s", []⟩ none none
        (addExperience ⟨fun _ => 0, fun _ _ => [], id, fun _ => [], fun _ g => g⟩ 0
          ⟨[0], ["f"], 0, "s", []⟩ none none
          ⟨1, 1000, 2, [], [], [], [], 0, 0⟩)).update_count = 1 ∧
    (addExperience ⟨fun _ => 0, fun _ _ => [], id, fun _ => [], fun _ g => g⟩ 0
        ⟨[2], ["f"], 0, "s", []⟩ none none
        (addExperience ⟨fun _ => 0, fun _ _ => [], id, fun _ => [], fun _ g => g⟩ 0
          ⟨[1], ["f"], 0, "s", []⟩ none none
          (addExperience ⟨fun _ => 0, fun _ _ => [], id, fun _ => [], fun _ g => g⟩ 0
            ⟨[0], ["f"], 0, "s", []⟩ none none
            ⟨1, 1000, 2, [], [], [], [], 0, 0⟩))).update_count = 2 := by
  refine ⟨?_, ?_, ?_⟩ <;>
    simp [addExperience, incrementalUpdate, mkExperience, dequePush]

/-- C3 amended: `add_experience` appends to the bounded buffer, counts the
sample, and attempts one full update pass over the ENTIRE post-add buffer on
every add for which the post-add buffer count is at least `update_threshold`
(and at least 2), not only on the add that first crosses the threshold.
Weights and thresholds are always recomputed over the whole buffer; the
cluster recomputation may raise a NumPy broadcast error (stored centroid
length not broadcasting against the group's current feature length), in
which case the exception propagates with the partial cluster mutations
retained and `update_count` NOT incremented; otherwise the pass completes
and `update_count` is incremented. -/
theorem c3_full_pass_on_threshold_amended (ext : Ext) (now : ℚ)
    (f : ProcessedFeatures) (label : Option String) (reward : Option ℚ)
    (L : Learner) :
    (addExperienceE ext now f label reward L).2.experience_buffer =
      dequePush L.memory_size L.experience_buffer
        (mkExperience now f label reward) ∧
    (addExperienceE ext now f label reward L).2.total_samples =
      L.total_samples + 1 ∧
    (addExperienceE ext now f label reward L).2.feature_weights =
      (if L.update_threshold ≤ (dequePush L.memory_size L.experience_buffer
            (mkExperience now f label reward)).length ∧
          2 ≤ (dequePush L.memory_size L.experience_buffer
            (mkExperience now f label reward)).length
       then updateFeatureWeights
              (dequePush L.memory_size L.experience_buffer
                (mkExperience now f label reward)) L.feature_weights
       else L.feature_weights) ∧
    (addExperienceE ext now f label reward L).2.anomaly_thresholds =
      (if L.update_threshold ≤ (dequePush L.memory_size L.experience_buffer
            (mkExperience now f label reward)).length ∧
          2 ≤ (dequePush L.memory_size L.experience_buffer
            (mkExperience now f label reward)).length
       then updateAnomalyThresholds ext.sqrt
              (dequePush L.memory_size L.experience_buffer
                (mkExperience now f label reward)) L.anomaly_thresholds
       else L.anomaly_thresholds) ∧
    (addExperienceE ext now f label reward L).2.pattern_clusters =
      (if L.update_threshold ≤ (dequePush L.memory_size L.experience_buffer
            (mkExperience now f label reward)).length ∧
          2 ≤ (dequePush L.memory_size L.experience_buffer
            (mkExperience now f label reward)).length
       then (updatePatternClustersE ext
              (dequePush L.memory_size L.experience_buffer
                (mkExperience now f label reward)) L.pattern_clusters).2
       else L.pattern_clusters) ∧
    (addExperienceE ext now f label reward L).1 =
      (if L.update_threshold ≤ (dequePush L.memory_size L.experience_buffer
            (mkExperience now f label reward)).length ∧
          2 ≤ (dequePush L.memory_size L.experience_buffer
            (mkExperience now f label reward)).length
       then (updatePatternClustersE ext
              (dequePush L.memory_size L.experience_buffer
                (mkExperience now f label reward)) L.pattern_clusters).1
       else none) ∧
    (addExperienceE ext now f label reward L).2.update_count =
      (if (L.update_threshold ≤ (dequePush L.memory_size L.experience_buffer
            (mkExperience now f label reward)).length ∧
          2 ≤ (dequePush L.memory_size L.experience_buffer
            (mkExperience now f label reward)).length) ∧
          (updatePatternClustersE ext
            (dequePush L.memory_size L.experience_buffer
              (mkExperience now f label reward)) L.pattern_clusters).1 = none
       then L.update_count + 1 else L.update_count) := by
  set buf := dequePush L.memory_size L.experience_buffer
    (mkExperience now f label reward) with hbuf
  by_cases h1 : L.update_threshold ≤ buf.length <;>
    by_cases h2 : 2 ≤ buf.length
  · have hh : ¬ buf.length < 2 := Nat.not_lt.mpr h2
    rcases hE : updatePatternClustersE ext buf L.pattern_clusters with ⟨flag, m1⟩
    cases flag with
    | none =>
      simp [addExperienceE, incrementalUpdateE, ← hbuf, h1, h2, hh, hE]
    | some e =>
      simp [addExperienceE, incrementalUpdateE, ← hbuf, h1, h2, hh, hE]
  · have hh : buf.length < 2 := Nat.not_le.mp h2
    simp [addExperienceE, incrementalUpdateE, ← hbuf, h1, h2, hh]
  · simp [addExperienceE, incrementalUpdateE, ← hbuf, h1, h2]
  · simp [addExperienceE, incrementalUpdateE, ← hbuf, h1, h2]

/-- The raise path of the amended C3 statement at a concrete state: a stale
length-2 centroid `[10, 10]` against a homogeneous length-6 group makes the
cluster recomputation raise the broadcast error, leaving the stored
clusters unchanged. -/
theorem clGroupE_stale_centroid_raises :
    clGroupE ⟨fun _ => 0, fun _ _ => [], id, fun _ => [], fun _ g => g⟩ "t"
        [⟨0, "t", [0, 0, 0, 0, 0, 0], ["a", "b", "c", "d", "e", "f"], none, none, []⟩,
         ⟨0, "t", [1, 0, 0, 0, 0, 0], ["a", "b", "c", "d", "e", "f"], none, none, []⟩,
         ⟨0, "t", [2, 0, 0, 0, 0, 0], ["a", "b", "c", "d", "e", "f"], none, none, []⟩,
         ⟨0, "t", [3, 0, 0, 0, 0, 0], ["a", "b", "c", "d", "e", "f"], none, none, []⟩,
         ⟨0, "t", [4, 0, 0, 0, 0, 0], ["a", "b", "c", "d", "e", "f"], none, none, []⟩]
        [("t", [[10, 10]])] =
      (some .valueError, [("t", [[10, 10]])]) := by
  simp [clGroupE, clCenterE, homogeneousLens, alLookup, npBroadcastSub,
    npBroadcastZip, Bind.bind, Except.bind, List.mapM, List.mapM.loop,
    Pure.pure, Except.pure]

/-- Number of occurrences of `x` in `lens`. -/
def countLen (lens : List ℕ) (x : ℕ) : ℕ := (lens.filter (fun y => y = x)).length

/-- The majority (most frequent, first-seen on ties) element of a length
list. -/
def majorityLen (lens : List ℕ) : ℕ :=
  lens.foldl
    (fun best x => if countLen lens best < countLen lens x then x else best)
    (lens.headD 0)

/-- Spec-side definition, following the claim's words for C4: the
variance-based weight statistic computed after first discarding the
experiences whose feature-vector length differs from the group's majority
length. Written to be compared with `fwGroup`, which is what the code does. -/
def specMajorityFilteredWeights (sid : String) (exps : List Experience)
    (m : List (String × ℚ)) : List (String × ℚ) :=
  let kept := exps.filter
    (fun e => e.features.length = majorityLen (exps.map (·.features.length)))
  if kept.length < 2 then m
  else
    let rows := kept.map (·.features)
    let names := (kept.headD default).feature_names
    let ncols := (kept.headD default).features.length
    let vars := (List.range ncols).map (fun j => npVar (col rows j))
    let s := vars.sum
    if 0 < s then
      names.enum.foldl
        (fun m p => fwWrite (mkKey sid p.2) ((vars.map (· / s)).getD p.1 0) m) m
    else m

/-- C4 counterexample: a sensor group holding two length-1 experiences and
one length-2 experience. The code's update skips the whole group and learns
nothing, whereas the claimed majority-filtered statistic would store a
weight for the majority-length feature — so the update does not "first
discard the minority-length experiences". -/
theorem c4_majority_filter_counterexample :
    fwGroup "s"
        [⟨0, "s", [0], ["f"], none, none, []⟩,
         ⟨0, "s", [1], ["f"], none, none, []⟩,
         ⟨0, "s", [5, 5], ["f", "g"], none, none, []⟩] [] = [] ∧
    specMajorityFilteredWeights "s"
        [⟨0, "s", [0], ["f"], none, none, []⟩,
         ⟨0, "s", [1], ["f"], none, none, []⟩,
         ⟨0, "s", [5, 5], ["f", "g"], none, none, []⟩] [] = [("s_f", 1)] := by
  constructor
  · simp [fwGroup, homogeneousLens]
  · norm_num [specMajorityFilteredWeights, majorityLen, countLen, npVar,
      npMean, col, fwWrite, alLookup, alInsert, mkKey, List.range_succ,
      List.range_zero]
    rfl

/-- C4 amended: a sensor group whose feature-vector lengths are not all
equal is skipped in its entirety by each of the three statistics of an
update pass — weights, threshold bands and clusters are left exactly as
they were (and, the updaters being total functions, no error is raised). -/
theorem c4_hetero_group_skipped_amended (sq : ℚ → ℚ) (ext : Ext)
    (sid : String) (exps : List Experience) (mw : List (String × ℚ))
    (mt : List (String × (ℚ × ℚ))) (mc : List (String × List (List ℚ)))
    (h : homogeneousLens exps = false) :
    fwGroup sid exps mw = mw ∧ thrGroup sq sid exps mt = mt ∧
      clGroup ext sid exps mc = mc := by
  refine ⟨?_, ?_, ?_⟩ <;> simp [fwGroup, thrGroup, clGroup, h]

/-- Witness for the amended C4 theorem at a concrete heterogeneous group. -/
theorem c4_hetero_group_skipped_witness :
    fwGroup "s"
        [⟨0, "s", [0], ["f"], none, none, []⟩,
         ⟨0, "s", [5, 5], ["f", "g"], none, none, []⟩] [("k", 3)] =
      [("k", 3)] ∧
    thrGroup (fun q => q) "s"
        [⟨0, "s", [0], ["f"], none, none, []⟩,
         ⟨0, "s", [5, 5], ["f", "g"], none, none, []⟩] [] = [] ∧
    clGroup ⟨fun _ => 0, fun _ _ => [], id, fun _ => [], fun _ g => g⟩ "s"
        [⟨0, "s", [0], ["f"], none, none, []⟩,
         ⟨0, "s", [5, 5], ["f", "g"], none, none, []⟩] [] = [] :=
  c4_hetero_group_skipped_amended (fun q => q)
    ⟨fun _ => 0, fun _ _ => [], id, fun _ => [], fun _ g => g⟩ "s"
    [⟨0, "s", [0], ["f"], none, none, []⟩,
     ⟨0, "s", [5, 5], ["f", "g"], none, none, []⟩] [("k", 3)] [] []
    (by decide)

/-- Spec-side definition, following the claim's words for C6: the score of
a feature outside its band is the distance beyond the nearer bound divided
by that bound's absolute value, and 1.0 when that bound is exactly zero. -/
def specBandScore (lo hi v : ℚ) : ℚ :=
  if v < lo then (if lo = 0 then 1 else (lo - v) / |lo|)
  else (if hi = 0 then 1 else (v - hi) / |hi|)

/-- Spec-side definition, following the claim's words for C6: the scores of
exactly the thresholded features lying outside their bands. -/
def specTriggeredScores (th : List (String × (ℚ × ℚ))) (f : ProcessedFeatures) :
    List ℚ :=
  f.feature_names.enum.filterMap (fun p =>
    match alLookup (mkKey f.sensor_id p.2) th with
    | none => none
    | some band =>
      if f.features.getD p.1 0 < band.1 ∨ band.2 < f.features.getD p.1 0 then
        some (specBandScore band.1 band.2 (f.features.getD p.1 0))
      else none)

theorem anomalyScores_eq_spec (th : List (String × (ℚ × ℚ)))
    (f : ProcessedFeatures) :
    anomalyScores th f = specTriggeredScores th f := by
  unfold anomalyScores specTriggeredScores
  suffices h : ∀ (pairs : List (ℕ × String)) (acc : List ℚ),
      pairs.foldl
        (fun acc p =>
          match alLookup (mkKey f.sensor_id p.2) th with
          | none => acc
          | some band =>
            let v := f.features.getD p.1 0
            if v < band.1 ∨ band.2 < v then
              acc ++ [if v < band.1 then
                        (if band.1 = 0 then 1 else (band.1 - v) / |band.1|)
                      else
                        (if band.2 = 0 then 1 else (v - band.2) / |band.2|)]
            else acc) acc
        = acc ++ pairs.filterMap (fun p =>
            match alLookup (mkKey f.sensor_id p.2) th with
            | none => none
            | some band =>
              if f.features.getD p.1 0 < band.1 ∨
                  band.2 < f.features.getD p.1 0 then
                some (specBandScore band.1 band.2 (f.features.getD p.1 0))
              else none) by
    simpa using h f.feature_names.enum []
  intro pairs
  induction pairs with
  | nil => intro acc; simp
  | cons p t ih =>
    intro acc
    cases hl : alLookup (mkKey f.sensor_id p.2) th with
    | none =>
      simp only [List.foldl_cons, List.filterMap_cons, hl]
      simpa using ih acc
    | some band =>
      simp only [List.foldl_cons, List.filterMap_cons, hl]
      by_cases ht : f.features.getD p.1 0 < band.1 ∨
          band.2 < f.features.getD p.1 0
      · simp only [if_pos ht, ih, specBandScore]
        simp [List.append_assoc]
      · simp only [if_neg ht]
        simpa using ih acc

/-- C6: `detect_anomaly` returns `(false, 0.0)` when no feature of the
record has a learned threshold or every thresholded feature lies within its
band; otherwise it reports anomalous with the mean of the triggered
features' normalized out-of-band scores (distance beyond the nearer bound
over that bound's absolute value, 1.0 for a zero bound). -/
theorem c6_detect_anomaly_spec (L : Learner) (f : ProcessedFeatures) :
    detectAnomaly L f =
      if specTriggeredScores L.anomaly_thresholds f = [] then (false, 0)
      else (true, npMean (specTriggeredScores L.anomaly_thresholds f)) := by
  unfold detectAnomaly
  rw [anomalyScores_eq_spec]
  by_cases h : specTriggeredScores L.anomaly_thresholds f = []
  · simp [h]
  · have hlen : (specTriggeredScores L.anomaly_thresholds f).length ≠ 0 := by
      simpa [List.length_eq_zero] using h
    simp [h, hlen, Nat.pos_of_ne_zero hlen]

section ConstantStats

theorem list_sum_const (v : ℚ) :
    ∀ (l : List ℚ), (∀ x ∈ l, x = v) → l.sum = (l.length : ℚ) * v := by
  intro l
  induction l with
  | nil => intro _; simp
  | cons h t ih =>
    intro hc
    have hh : h = v := hc h (by simp)
    have ht : t.sum = (t.length : ℚ) * v := ih (fun x hx => hc x (by simp [hx]))
    simp [hh, ht]
    ring

theorem npMean_const (v : ℚ) (l : List ℚ) (hne : l ≠ [])
    (hc : ∀ x ∈ l, x = v) : npMean l = v := by
  unfold npMean
  rw [list_sum_const v l hc]
  have hlen : (l.length : ℚ) ≠ 0 := by
    simpa [List.length_eq_zero] using hne
  field_simp

theorem npVar_const (v : ℚ) (l : List ℚ) (hne : l ≠ [])
    (hc : ∀ x ∈ l, x = v) : npVar l = 0 := by
  unfold npVar
  have hm := npMean_const v l hne hc
  have hz : ∀ y ∈ l.map (fun x => (x - npMean l) ^ 2), y = 0 := by
    intro y hy
    obtain ⟨x, hx, rfl⟩ := List.mem_map.mp hy
    rw [hm, hc x hx]
    ring
  have hne2 : l.map (fun x => (x - npMean l) ^ 2) ≠ [] := by
    simpa using hne
  simpa using npMean_const 0 _ hne2 hz

theorem npMean_pos (l : List ℚ) (hne : l ≠ []) (hp : ∀ x ∈ l, 0 < x) :
    0 < npMean l := by
  unfold npMean
  have hs : 0 < l.sum := List.sum_pos l hp hne
  have hl : (0 : ℚ) < l.length := by
    have : l.length ≠ 0 := by simpa [List.length_eq_zero] using hne
    exact_mod_cast Nat.pos_of_ne_zero this
  exact div_pos hs hl

end ConstantStats

section GroupLemmas

theorem homogeneousLens_of_const (exps : List Experience) (n : ℕ)
    (h : ∀ e ∈ exps, e.features.length = n) : homogeneousLens exps = true := by
  cases exps with
  | nil => rfl
  | cons e t =>
    simp only [homogeneousLens, List.all_eq_true]
    intro x hx
    have h1 := h x (by simp [hx])
    have h2 := h e (by simp)
    simp [h1, h2]

theorem foldl_addToGroup_const (s : String) :
    ∀ (rest : List Experience) (acc : List Experience),
      (∀ e ∈ rest, e.sensor_id = s) →
      List.foldl addToGroup [(s, acc)] rest = [(s, acc ++ rest)] := by
  intro rest
  induction rest with
  | nil => intro acc _; simp
  | cons e t ih =>
    intro acc h
    have he : e.sensor_id = s := h e (by simp)
    simp only [List.foldl_cons, addToGroup, he, if_pos]
    rw [ih (acc ++ [e]) (fun x hx => h x (by simp [hx]))]
    simp

theorem sensorGroups_const (s : String) (exps : List Experience)
    (hne : exps ≠ []) (hs : ∀ e ∈ exps, e.sensor_id = s) :
    sensorGroups exps = [(s, exps)] := by
  cases exps with
  | nil => exact absurd rfl hne
  | cons e t =>
    have he : e.sensor_id = s := hs e (by simp)
    unfold sensorGroups
    simp only [List.foldl_cons]
    have h1 : addToGroup [] e = [(s, [e])] := by simp [addToGroup, he]
    rw [h1, foldl_addToGroup_const s t [e] (fun x hx => hs x (by simp [hx]))]
    simp

end GroupLemmas

section KeyLemmas

theorem mkKey_right_inj {s a b : String} (h : mkKey s a = mkKey s b) :
    a = b := by
  have hd : (s ++ "_").data ++ a.data = (s ++ "_").data ++ b.data := by
    have h2 := congrArg String.data h
    simpa [mkKey, String.data_append] using h2
  have h3 : a.data = b.data := List.append_cancel_left hd
  cases a; cases b
  exact congrArg String.mk h3

theorem thrWrite_lookup_ne {k k' : String} (hk : k ≠ k') (lo hi : ℚ)
    (m : List (String × (ℚ × ℚ))) :
    alLookup k (thrWrite k' lo hi m) = alLookup k m := by
  unfold thrWrite
  cases alLookup k' m <;> simp [alLookup_alInsert_ne hk]

theorem foldl_thrWrite_skip (sid name : String) (lo up : ℕ × String → ℚ) :
    ∀ (pairs : List (ℕ × String)) (m : List (String × (ℚ × ℚ))),
      (∀ q ∈ pairs, q.2 ≠ name) →
      alLookup (mkKey sid name)
        (pairs.foldl (fun m p => thrWrite (mkKey sid p.2) (lo p) (up p) m) m)
        = alLookup (mkKey sid name) m := by
  intro pairs
  induction pairs with
  | nil => intro m _; rfl
  | cons p t ih =>
    intro m h
    have hp : p.2 ≠ name := h p (by simp)
    have hk : mkKey sid name ≠ mkKey sid p.2 :=
      fun hcon => hp (mkKey_right_inj hcon).symm
    simp only [List.foldl_cons]
    rw [ih _ (fun q hq => h q (by simp [hq])), thrWrite_lookup_ne hk]

theorem foldl_thrWrite_lookup (sid : String) (lo up : ℕ × String → ℚ) :
    ∀ (pairs : List (ℕ × String)) (m : List (String × (ℚ × ℚ)))
      (i : ℕ) (name : String),
      (i, name) ∈ pairs → (pairs.map Prod.snd).Nodup →
      alLookup (mkKey sid name) m = none →
      alLookup (mkKey sid name)
        (pairs.foldl (fun m p => thrWrite (mkKey sid p.2) (lo p) (up p) m) m)
        = some (lo (i, name), up (i, name)) := by
  intro pairs
  induction pairs with
  | nil => intro m i name hmem; simp at hmem
  | cons p t ih =>
    intro m i name hmem hnd hnone
    rw [List.map_cons] at hnd
    have hnd1 : p.2 ∉ t.map Prod.snd := (List.nodup_cons.mp hnd).1
    have hnd2 : (t.map Prod.snd).Nodup := (List.nodup_cons.mp hnd).2
    simp only [List.foldl_cons]
    rcases List.mem_cons.mp hmem with heq | hmemt
    · have hstep : alLookup (mkKey sid name)
          (thrWrite (mkKey sid p.2) (lo p) (up p) m)
          = some (lo (i, name), up (i, name)) := by
        rw [← heq]
        unfold thrWrite
        rw [hnone]
        exact alLookup_alInsert_self _ _ _
      have hnot : ∀ q ∈ t, q.2 ≠ name := by
        intro q hq hcon
        rw [← heq] at hnd1
        exact hnd1 (List.mem_map.mpr ⟨q, hq, hcon⟩)
      rw [foldl_thrWrite_skip sid name lo up t _ hnot, hstep]
    · have hname : name ∈ t.map Prod.snd :=
        List.mem_map.mpr ⟨(i, name), hmemt, rfl⟩
      have hp : p.2 ≠ name := fun hcon => hnd1 (hcon ▸ hname)
      have hk : mkKey sid name ≠ mkKey sid p.2 :=
        fun hcon => hp (mkKey_right_inj hcon).symm
      have hnone2 : alLookup (mkKey sid name)
          (thrWrite (mkKey sid p.2) (lo p) (up p) m) = none := by
        rw [thrWrite_lookup_ne hk, hnone]
      exact ih _ i name hmemt hnd2 hnone2

end KeyLemmas

theorem specBandScore_pos (lo hi v : ℚ) (ht : v < lo ∨ hi < v) :
    0 < specBandScore lo hi v := by
  unfold specBandScore
  by_cases h1 : v < lo
  · simp only [if_pos h1]
    by_cases h0 : lo = 0
    · simp [h0]
    · simp only [if_neg h0]
      exact div_pos (by linarith) (abs_pos.mpr h0)
  · simp only [if_neg h1]
    have h2 : hi < v := ht.resolve_left h1
    by_cases h0 : hi = 0
    · simp [h0]
    · simp only [if_neg h0]
      exact div_pos (by linarith) (abs_pos.mpr h0)

theorem specTriggeredScores_pos (th : List (String × (ℚ × ℚ)))
    (f : ProcessedFeatures) : ∀ x ∈ specTriggeredScores th f, 0 < x := by
  intro x hx
  obtain ⟨p, _, hgp⟩ := List.mem_filterMap.mp hx
  cases hl : alLookup (mkKey f.sensor_id p.2) th with
  | none =>
    rw [hl] at hgp
    exact Option.noConfusion hgp
  | some band =>
    rw [hl] at hgp
    dsimp only at hgp
    by_cases ht : f.features.getD p.1 0 < band.1 ∨
        band.2 < f.features.getD p.1 0
    · rw [if_pos ht] at hgp
      injection hgp with h
      rw [← h]
      exact specBandScore_pos band.1 band.2 _ ht
    · rw [if_neg ht] at hgp
      exact Option.noConfusion hgp

/-- C5: a sensor-feature key with no prior band, fed at least 5
homogeneous experiences whose value at that feature is the constant `v`,
receives the degenerate band `(v, v)` from an update pass (the population
standard deviation of a constant column is the external square root of 0,
required to be 0); afterwards `detect_anomaly` flags any record of that
sensor deviating from `v` at that feature as anomalous with a strictly
positive score. -/
theorem c5_constant_feature_degenerate_band (ext : Ext) (L : Learner)
    (g : ProcessedFeatures) (s name : String) (v : ℚ) (i : ℕ)
    (names : List String) (exps : List Experience)
    (hsq : ext.sqrt 0 = 0)
    (hbuf : L.experience_buffer = exps)
    (hm : alLookup (mkKey s name) L.anomaly_thresholds = none)
    (h5 : 5 ≤ exps.length)
    (hs : ∀ e ∈ exps, e.sensor_id = s)
    (hn : ∀ e ∈ exps, e.feature_names = names)
    (hlen : ∀ e ∈ exps, e.features.length = names.length)
    (hv : ∀ e ∈ exps, e.features.getD i 0 = v)
    (hi : (i, name) ∈ names.enum)
    (hnd : names.Nodup)
    (hgs : g.sensor_id = s) (hgn : g.feature_names = names)
    (hw : g.features.getD i 0 ≠ v) :
    alLookup (mkKey s name) (incrementalUpdate ext L).anomaly_thresholds
      = some (v, v) ∧
    (detectAnomaly (incrementalUpdate ext L) g).1 = true ∧
    0 < (detectAnomaly (incrementalUpdate ext L) g).2 := by
  have hne : exps ≠ [] := by
    intro hE
    rw [hE] at h5
    simp at h5
  have hb2 : ¬ exps.length < 2 := by omega
  have hthr : (incrementalUpdate ext L).anomaly_thresholds =
      updateAnomalyThresholds ext.sqrt exps L.anomaly_thresholds := by
    simp [incrementalUpdate, hbuf, hb2]
  have hgroups := sensorGroups_const s exps hne hs
  have hupd : updateAnomalyThresholds ext.sqrt exps L.anomaly_thresholds =
      thrGroup ext.sqrt s exps L.anomaly_thresholds := by
    simp [updateAnomalyThresholds, hgroups]
  have hhom : homogeneousLens exps = true :=
    homogeneousLens_of_const exps names.length hlen
  have h5x : ¬ exps.length < 5 := by omega
  have hhead : (exps.head?.getD default).feature_names = names := by
    cases exps with
    | nil => exact absurd rfl hne
    | cons e t => exact hn e (by simp)
  have hth : thrGroup ext.sqrt s exps L.anomaly_thresholds =
      names.enum.foldl
        (fun m p => thrWrite (mkKey s p.2)
          (npMean (col (exps.map (·.features)) p.1) -
            3 * ext.sqrt (npVar (col (exps.map (·.features)) p.1)))
          (npMean (col (exps.map (·.features)) p.1) +
            3 * ext.sqrt (npVar (col (exps.map (·.features)) p.1))) m)
        L.anomaly_thresholds := by
    simp [thrGroup, h5x, hhom, hhead]
  have hcol : ∀ x ∈ col (exps.map (·.features)) i, x = v := by
    intro x hx
    obtain ⟨r, hr, rfl⟩ := List.mem_map.mp hx
    obtain ⟨e, he, rfl⟩ := List.mem_map.mp hr
    exact hv e he
  have hcolne : col (exps.map (·.features)) i ≠ [] := by
    simpa [col] using hne
  have hmean : npMean (col (exps.map (·.features)) i) = v :=
    npMean_const v _ hcolne hcol
  have hvar : npVar (col (exps.map (·.features)) i) = 0 :=
    npVar_const v _ hcolne hcol
  have hndsnd : (names.enum.map Prod.snd).Nodup := by
    simpa [List.enum_map_snd] using hnd
  have hkey := foldl_thrWrite_lookup s
    (fun p => npMean (col (exps.map (·.features)) p.1) -
      3 * ext.sqrt (npVar (col (exps.map (·.features)) p.1)))
    (fun p => npMean (col (exps.map (·.features)) p.1) +
      3 * ext.sqrt (npVar (col (exps.map (·.features)) p.1)))
    names.enum L.anomaly_thresholds i name hi hndsnd hm
  have hpart1 : alLookup (mkKey s name)
      (incrementalUpdate ext L).anomaly_thresholds = some (v, v) := by
    rw [hthr, hupd, hth, hkey]
    simp [hmean, hvar, hsq]
  refine ⟨hpart1, ?_⟩
  have ht : g.features.getD i 0 < v ∨ v < g.features.getD i 0 :=
    hw.lt_or_lt
  have hmem : specBandScore v v (g.features.getD i 0) ∈
      specTriggeredScores (incrementalUpdate ext L).anomaly_thresholds g := by
    apply List.mem_filterMap.mpr
    refine ⟨(i, name), by rw [hgn]; exact hi, ?_⟩
    rw [hgs, hpart1]
    simp only [if_pos ht]
  have hne2 : specTriggeredScores
      (incrementalUpdate ext L).anomaly_thresholds g ≠ [] :=
    List.ne_nil_of_mem hmem
  have hlen0 : (specTriggeredScores
      (incrementalUpdate ext L).anomaly_thresholds g).length ≠ 0 := by
    simpa [List.length_eq_zero] using hne2
  have hdet : detectAnomaly (incrementalUpdate ext L) g =
      (true, npMean (specTriggeredScores
        (incrementalUpdate ext L).anomaly_thresholds g)) := by
    unfold detectAnomaly
    rw [anomalyScores_eq_spec]
    simp [hlen0, Nat.pos_of_ne_zero hlen0]
  rw [hdet]
  exact ⟨rfl, npMean_pos _ hne2
    (specTriggeredScores_pos (incrementalUpdate ext L).anomaly_thresholds g)⟩

/-- Witness for C5 at a concrete learner: five experiences of sensor "s"
with constant feature value 3 and no prior band produce the band (3, 3),
and a reading of 4 is flagged anomalous with positive score. -/
theorem c5_constant_feature_witness :
    alLookup (mkKey "s" "f")
        (incrementalUpdate
          ⟨fun _ => 0, fun _ _ => [], id, fun _ => [], fun _ g => g⟩
          ⟨1, 1000, 10,
            [⟨0, "s", [3], ["f"], none, none, []⟩,
             ⟨0, "s", [3], ["f"], none, none, []⟩,
             ⟨0, "s", [3], ["f"], none, none, []⟩,
             ⟨0, "s", [3], ["f"], none, none, []⟩,
             ⟨0, "s", [3], ["f"], none, none, []⟩],
            [], [], [], 0, 0⟩).anomaly_thresholds = some (3, 3) ∧
    (detectAnomaly
        (incrementalUpdate
          ⟨fun _ => 0, fun _ _ => [], id, fun _ => [], fun _ g => g⟩
          ⟨1, 1000, 10,
            [⟨0, "s", [3], ["f"], none, none, []⟩,
             ⟨0, "s", [3], ["f"], none, none, []⟩,
             ⟨0, "s", [3], ["f"], none, none, []⟩,
             ⟨0, "s", [3], ["f"], none, none, []⟩,
             ⟨0, "s", [3], ["f"], none, none, []⟩],
            [], [], [], 0, 0⟩)
        ⟨[4], ["f"], 0, "s", []⟩).1 = true ∧
    0 < (detectAnomaly
        (incrementalUpdate
          ⟨fun _ => 0, fun _ _ => [], id, fun _ => [], fun _ g => g⟩
          ⟨1, 1000, 10,
            [⟨0, "s", [3], ["f"], none, none, []⟩,
             ⟨0, "s", [3], ["f"], none, none, []⟩,
             ⟨0, "s", [3], ["f"], none, none, []⟩,
             ⟨0, "s", [3], ["f"], none, none, []⟩,
             ⟨0, "s", [3], ["f"], none, none, []⟩],
            [], [], [], 0, 0⟩)
        ⟨[4], ["f"], 0, "s", []⟩).2 :=
  c5_constant_feature_degenerate_band
    ⟨fun _ => 0, fun _ _ => [], id, fun _ => [], fun _ g => g⟩
    ⟨1, 1000, 10,
      [⟨0, "s", [3], ["f"], none, none, []⟩,
       ⟨0, "s", [3], ["f"], none, none, []⟩,
       ⟨0, "s", [3], ["f"], none, none, []⟩,
       ⟨0, "s", [3], ["f"], none, none, []⟩,
       ⟨0, "s", [3], ["f"], none, none, []⟩],
      [], [], [], 0, 0⟩
    ⟨[4], ["f"], 0, "s", []⟩ "s" "f" 3 0 ["f"]
    [⟨0, "s", [3], ["f"], none, none, []⟩,
     ⟨0, "s", [3], ["f"], none, none, []⟩,
     ⟨0, "s", [3], ["f"], none, none, []⟩,
     ⟨0, "s", [3], ["f"], none, none, []⟩,
     ⟨0, "s", [3], ["f"], none, none, []⟩]
    rfl rfl rfl (by norm_num) (by decide) (by decide) (by decide) (by decide)
    (by decide) (by decide) rfl rfl (by decide)

/-- C7: `process_batch` is a list comprehension whose filter condition and
element expression each call `process_reading`, so a batched temperature
reading is processed twice: the window receives the value twice and the kept
result contains the extra `temperature_delta` feature. A single
`process_reading` call on the same fresh state yields one feature and one
window entry, so batch processing is not the single-reading operation
applied once per item. -/
theorem c7_batch_double_processing_bug :
    processBatch ⟨fun _ => 0, fun _ _ => [], id, fun _ => [], fun _ g => g⟩
        ⟨10, true, []⟩
        [⟨"t1", .temperature, 0, .rNum 25, "C", 1, []⟩] =
      .ok ([some ⟨[3/5, 0], ["temperature_current", "temperature_delta"],
                  0, "t1", [("raw_value", .cNum 25), ("unit", .cStr "C")]⟩],
           ⟨10, true, [("t1", [.wNum 25, .wNum 25])]⟩) ∧
    processReading ⟨fun _ => 0, fun _ _ => [], id, fun _ => [], fun _ g => g⟩
        ⟨10, true, []⟩
        ⟨"t1", .temperature, 0, .rNum 25, "C", 1, []⟩ =
      .ok (some ⟨[3/5], ["temperature_current"],
                 0, "t1", [("raw_value", .cNum 25), ("unit", .cStr "C")]⟩,
           ⟨10, true, [("t1", [.wNum 25])]⟩) := by
  constructor
  · norm_num [processBatch, processReading, processTemperature, ensureWindow,
      dequePush, alLookup, alInsert, winScalars, pyFloat, presetStats,
      Bind.bind, Except.bind, Pure.pure, Except.pure]
  · norm_num [processReading, processTemperature, ensureWindow, dequePush,
      alLookup, alInsert, winScalars, pyFloat, presetStats,
      Bind.bind, Except.bind, Pure.pure, Except.pure]

/-- C8 counterexample: a temperature reading whose value is not numeric
(here `None`) makes `process_reading` raise a conversion error
(`float(None)`), not return no result — the no-result-on-shape-mismatch
behavior does not extend to temperature readings. -/
theorem c8_temperature_type_error_counterexample :
    processReading ⟨fun _ => 0, fun _ _ => [], id, fun _ => [], fun _ g => g⟩
        ⟨10, true, []⟩ ⟨"t1", .temperature, 0, .rNone, "C", 1, []⟩ =
      .error .typeError := rfl

/-- C8 amended: the shape guards hold for the camera and accelerometer
paths — a camera reading whose value is not an image array and an
accelerometer reading whose value is not a mapping yield no result (and no
error), with only the window-creation side effect of `process_reading` —
while a temperature reading with a non-numeric value raises instead. -/
theorem c8_shape_guards_amended (ext : Ext) (pp : Preprocessor)
    (r : SensorReading) :
    (r.sensor_type = .camera → (∀ img, r.value ≠ .rImage img) →
      processReading ext pp r = .ok (none, ensureWindow r.sensor_id pp)) ∧
    (r.sensor_type = .accelerometer → (∀ d, r.value ≠ .rDict d) →
      processReading ext pp r = .ok (none, ensureWindow r.sensor_id pp)) := by
  obtain ⟨sid, stype, ts, val, u, conf, md⟩ := r
  refine ⟨fun h1 h2 => ?_, fun h1 h2 => ?_⟩
  · cases h1
    cases val with
    | rImage img => exact absurd rfl (h2 img)
    | rNone => rfl
    | rNum q => rfl
    | rBool b => rfl
    | rDict d => rfl
  · cases h1
    cases val with
    | rDict d => exact absurd rfl (h2 d)
    | rNone => rfl
    | rNum q => rfl
    | rBool b => rfl
    | rImage _ => rfl

/-- Witness for the amended C8 theorem: a camera reading carrying `None`
and an accelerometer reading carrying a bare number both yield no result. -/
theorem c8_shape_guards_witness :
    processReading ⟨fun _ => 0, fun _ _ => [], id, fun _ => [], fun _ g => g⟩
        ⟨10, true, []⟩ ⟨"cam", .camera, 0, .rNone, "", 1, []⟩ =
      .ok (none, ensureWindow "cam" ⟨10, true, []⟩) ∧
    processReading ⟨fun _ => 0, fun _ _ => [], id, fun _ => [], fun _ g => g⟩
        ⟨10, true, []⟩ ⟨"acc", .accelerometer, 0, .rNum 7, "", 1, []⟩ =
      .ok (none, ensureWindow "acc" ⟨10, true, []⟩) :=
  ⟨(c8_shape_guards_amended
      ⟨fun _ => 0, fun _ _ => [], id, fun _ => [], fun _ g => g⟩
      ⟨10, true, []⟩ ⟨"cam", .camera, 0, .rNone, "", 1, []⟩).1 rfl
      (fun _ h => RawValue.noConfusion h),
   (c8_shape_guards_amended
      ⟨fun _ => 0, fun _ _ => [], id, fun _ => [], fun _ g => g⟩
      ⟨10, true, []⟩ ⟨"acc", .accelerometer, 0, .rNum 7, "", 1, []⟩).2 rfl
      (fun _ h => RawValue.noConfusion h)⟩

end EdgeAI
